import Mathlib

/-!
Verification development for the Format-Library usage-statistics aggregator
(`usage_stats.py`).  The Python source is shallowly embedded: pure helper
functions become Lean functions over `Int`/`Nat`/`String`, Python `dict` /
`Counter` tables become functions `String → Nat` (a key is "present" exactly
when its value is nonzero; every insertion in the source adds a positive
amount, so this is faithful for value queries and for Python `dict` equality),
and the per-deck iteration of the driving loop becomes a fold of an explicit
`observe` step over a list of observations.

Python string primitives used by the source (`str.strip`, `str.splitlines`,
`str.isdigit`, `str.startswith`) are embedded as executable functions on the
character list `String.data`, so that every definition kernel-evaluates on
concrete inputs.
-/

namespace UsageStats

/-! ## Embedded Python string primitives -/

/-- Embeds Python `str.strip()` (used by `normalize_card_name` and the
deck-list line loop): drop whitespace from both ends. -/
def pyStrip (s : String) : String :=
  ⟨((s.data.dropWhile Char.isWhitespace).reverse.dropWhile Char.isWhitespace).reverse⟩

/-- Embeds Python `str.splitlines()` on newline-separated text, as used on the
`ydk` payloads in `parse_deck_payload` (the payloads of interest separate
lines with a bare newline character). -/
def splitCharsAux : List Char → List Char → List (List Char)
  | [], cur => [cur.reverse]
  | c :: rest, cur =>
      if c = '\n' then cur.reverse :: splitCharsAux rest []
      else splitCharsAux rest (c :: cur)

def pySplitLines (s : String) : List String :=
  (splitCharsAux s.data []).map (fun cs => ⟨cs⟩)

/-- Embeds Python `str.isdigit()`: nonempty and every character a digit. -/
def pyIsDigit (s : String) : Bool :=
  !s.data.isEmpty && s.data.all Char.isDigit

/-- Embeds Python `str.startswith(c)` for a single-character prefix, as used
on the already-stripped deck-list lines. -/
def pyStartsWith (s : String) (c : Char) : Bool :=
  match s.data with
  | [] => false
  | a :: _ => a = c

/-- `normalize_card_name` (usage_stats.py line 44): `name.strip()`. -/
def normalize_card_name (name : String) : String := pyStrip name

/-! ## Cut tiers (usage_stats.py lines 12-29, 113-117) -/

/-- `CUT_TIERS` (lines 12-22): the nine labels with their thresholds. -/
def CUT_TIERS : List (String × Int) :=
  [("Winner", 1), ("Finalist", 2), ("Top 4", 4), ("Top 8", 8), ("Top 16", 16),
   ("Top 24", 24), ("Top 32", 32), ("Top 48", 48), ("Top 64", 64)]

def tierLabels : List String := CUT_TIERS.map Prod.fst

def tierThresholds : List Int := CUT_TIERS.map Prod.snd

/-- `tiers_applicable` (lines 24-29): collect, in definition order, every
label whose threshold is ≤ the cut size and ≥ the placement. -/
def tiers_applicable (placement : Int) (cut_size : Int) : List String :=
  CUT_TIERS.foldl
    (fun acc pr => if pr.2 ≤ cut_size ∧ placement ≤ pr.2 then acc ++ [pr.1] else acc) []

/-- Loop body of `infer_cut_size_from_top` (lines 113-117): return the first
threshold that is ≥ `top_len`, else fall through to `top_len` itself. -/
def inferCutAux : List (String × Int) → Int → Int
  | [], top_len => top_len
  | pr :: rest, top_len => if top_len ≤ pr.2 then pr.2 else inferCutAux rest top_len

def infer_cut_size_from_top (top_len : Int) : Int :=
  inferCutAux CUT_TIERS top_len

/-! ## Sparse counters

A Python `Counter`/`dict` of nonnegative counts is embedded as a total
function `String → Nat` with absent keys reading as `0`; every mutation in
the source is `table[k] += q`, embedded as `bump`. -/

abbrev Cnt := String → Nat

abbrev Tbl := String → String → Nat

def czero : Cnt := fun _ => 0

def tzero : Tbl := fun _ _ => 0

/-- One `table[k] += q` update. -/
def bump (t : Cnt) (k : String) (q : Nat) : Cnt :=
  fun k' => if k' = k then t k' + q else t k'

/-- `for k, q in items: table[k] += q`. -/
def bumpFold (t : Cnt) (items : List (String × Nat)) : Cnt :=
  items.foldl (fun t p => bump t p.1 p.2) t

/-- Total quantity that `items` contributes to key `k`. -/
def sumAt (items : List (String × Nat)) (k : String) : Nat :=
  (items.map (fun p => if p.1 = k then p.2 else 0)).sum

/-- `table[k][·] := f (table[k])`: update one outer slot of a two-level table. -/
def updAt (T : Tbl) (k : String) (f : Cnt → Cnt) : Tbl :=
  fun k' => if k' = k then f (T k') else T k'

/-- `for k, q in items: for s in tiers: table[k][s] += q`. -/
def tblFold (T : Tbl) (items : List (String × Nat)) (tiers : List String) : Tbl :=
  items.foldl
    (fun T p => updAt T p.1 (fun m => bumpFold m (tiers.map (fun s => (s, p.2))))) T

theorem bump_apply (t : Cnt) (k : String) (q : Nat) (k' : String) :
    bump t k q k' = t k' + (if k' = k then q else 0) := by
  unfold bump; split <;> simp

theorem sumAt_cons (p : String × Nat) (items : List (String × Nat)) (k : String) :
    sumAt (p :: items) k = (if p.1 = k then p.2 else 0) + sumAt items k := by
  simp [sumAt]

theorem bumpFold_apply (items : List (String × Nat)) (t : Cnt) (k : String) :
    bumpFold t items k = t k + sumAt items k := by
  induction items generalizing t with
  | nil => simp [bumpFold, sumAt]
  | cons p rest ih =>
      have h := ih (bump t p.1 p.2)
      simp only [bumpFold, List.foldl_cons] at h ⊢
      rw [h, bump_apply, sumAt_cons]
      have he : (if k = p.1 then p.2 else 0) = (if p.1 = k then p.2 else 0) := by
        by_cases hk : p.1 = k
        · simp [hk]
        · have hk2 : ¬k = p.1 := fun hh => hk hh.symm
          simp [hk, hk2]
      rw [he]; omega

theorem updAt_apply (T : Tbl) (k : String) (f : Cnt → Cnt) (k' : String) :
    updAt T k f k' = if k' = k then f (T k') else T k' := rfl

theorem sumAt_map_const (tiers : List String) (q : Nat) (t : String) :
    sumAt (tiers.map (fun s => (s, q))) t = q * sumAt (tiers.map (fun s => (s, 1))) t := by
  induction tiers with
  | nil => simp [sumAt]
  | cons a rest ih =>
      simp only [List.map_cons, sumAt_cons]
      rw [ih]
      split <;> ring

theorem tblFold_apply (items : List (String × Nat)) (tiers : List String) (T : Tbl)
    (c t : String) :
    tblFold T items tiers c t
      = T c t + sumAt items c * sumAt (tiers.map (fun s => (s, 1))) t := by
  induction items generalizing T with
  | nil => simp [tblFold, sumAt]
  | cons p rest ih =>
      simp only [tblFold, List.foldl_cons] at ih ⊢
      rw [ih, sumAt_cons, updAt_apply]
      by_cases hc : c = p.1
      · rw [if_pos hc, bumpFold_apply, sumAt_map_const, if_pos hc.symm]
        ring
      · rw [if_neg hc, if_neg (fun h => hc h.symm)]
        ring

theorem updAt_bumpFold_apply (T : Tbl) (k : String) (items : List (String × Nat))
    (a c : String) :
    updAt T k (fun m => bumpFold m items) a c
      = T a c + (if a = k then sumAt items c else 0) := by
  rw [updAt_apply]
  by_cases h : a = k
  · rw [if_pos h, if_pos h, bumpFold_apply]
  · rw [if_neg h, if_neg h]; omega

/-! ## Deck payloads (usage_stats.py lines 47-111)

A Python payload value is embedded by shape: a JSON-object payload becomes a
`PDict`; a string payload is embedded together with the outcome of
`json.loads` on it (`pstrDecoded p raw` when decoding succeeds with value
`p`, `pstrRaw raw` when it raises); any other value (number, list, `None`)
is `pother`.  An `Option` field of `PDict` is `none` when the key is absent
(or holds a value the source treats like an absent one, e.g. `None` lists —
`payload.get(k, []) or []` — or a non-string `ydk`), and `some v` when
present. -/

/-- A card-reference object: the three name fields probed by the source.
`none` = key absent or `None`; `some s` = key present with string `s`
(possibly empty — Python treats `""` as falsy in the `or` chain). -/
structure CardObj where
  name : Option String
  cleanName : Option String
  cardName : Option String

/-- A Python value embedded by the outcome of `int(x)` on it: `some n` when
the conversion succeeds, `none` when it raises. -/
structure PyScalar where
  toInt : Option Int

structure PDict where
  main : Option (List CardObj)
  extra : Option (List CardObj)
  side : Option (List CardObj)
  ydk : Option String
  placement : Option PyScalar
  deckTypeName : Option String

inductive Payload where
  | pdict (d : PDict) : Payload
  | pstrDecoded (p : Payload) (raw : String) : Payload
  | pstrRaw (raw : String) : Payload
  | pother : Payload

/-- The `nm = obj.get("name") or obj.get("cleanName") or obj.get("cardName")`
chain: Python `or` keeps the left operand when it is truthy (a nonempty
string), else yields the right operand. -/
def pyOr (a b : Option String) : Option String :=
  match a with
  | some s => if s = "" then b else some s
  | none => b

/-- The `if nm:` guard applied to the result of the `or` chain. -/
def truthyStr : Option String → Option String
  | some s => if s = "" then none else some s
  | none => none

/-- Effective card name of an object, per lines 50-54 / 98-110. -/
def objName (o : CardObj) : Option String :=
  truthyStr (pyOr (pyOr o.name o.cleanName) o.cardName)

/-- `add_from_section` (lines 50-54), also the inline per-section loops of
`parse_deck_sections` (lines 98-110): bump the normalized effective name of
every object that has one. -/
def addFromSection (t : Cnt) (items : List CardObj) : Cnt :=
  items.foldl
    (fun t o =>
      match objName o with
      | some nm => bump t (normalize_card_name nm) 1
      | none => t) t

/-- The deck-list-text line loop (lines 65-73 and 80-87): strip each line,
skip blanks and `#`/`!` comments, count pure digit lines under a synthetic
`CARD_ID:` key, and every other line under its stripped text. -/
def parseYdkLines (t : Cnt) (lines : List String) : Cnt :=
  lines.foldl
    (fun t ln =>
      let l := pyStrip ln
      if l = "" ∨ pyStartsWith l '#' ∨ pyStartsWith l '!' then t
      else if pyIsDigit l then bump t ("CARD_ID:" ++ l) 1
      else bump t (normalize_card_name l) 1) t

/-- `parse_deck_payload` (lines 47-90): combined card counts of a payload. -/
def parse_deck_payload : Payload → Cnt
  | .pdict d =>
      if d.main.isSome ∨ d.extra.isSome ∨ d.side.isSome then
        addFromSection
          (addFromSection (addFromSection czero (d.main.getD [])) (d.extra.getD []))
          (d.side.getD [])
      else
        match d.ydk with
        | some y => parseYdkLines czero (pySplitLines y)
        | none => czero
  | .pstrDecoded p _ => parse_deck_payload p
  | .pstrRaw raw => parseYdkLines czero (pySplitLines raw)
  | .pother => czero

/-- `parse_deck_sections` (lines 92-111): per-section counts
`(main, side, extra)`; any non-dict payload yields three empty tables. -/
def parse_deck_sections : Payload → Cnt × Cnt × Cnt
  | .pdict d =>
      (addFromSection czero (d.main.getD []),
       addFromSection czero (d.side.getD []),
       addFromSection czero (d.extra.getD []))
  | _ => (czero, czero, czero)

/-! ## The aggregation engine (usage_stats.py lines 138-289)

One fully-resolved deck observation, as consumed by the per-entry body of the
driving loop.  The four count tables of the observation are embedded as the
`.items()` lists of the corresponding Python dicts (key order is the dict's
insertion order; a genuine dict has no duplicate keys). -/

structure Obs where
  counts : List (String × Nat)
  main : List (String × Nat)
  side : List (String × Nat)
  extra : List (String × Nat)
  placing : Int
  cutSize : Int
  archetype : String

/-- `d.get(c, 0)` on an items list: the value of the first matching entry. -/
def getV (items : List (String × Nat)) (c : String) : Nat :=
  (((items.find? (fun p => decide (p.1 = c)))).map Prod.snd).getD 0

def keysOf (items : List (String × Nat)) : List String := items.map Prod.fst

/-- `set(d.keys())`: the distinct keys. -/
def setKeys (items : List (String × Nat)) : List String := (keysOf items).dedup

/-- Presence iteration: each key paired with a unit contribution. -/
def withOne (ks : List String) : List (String × Nat) := ks.map (fun c => (c, 1))

/-- `all_ms = set(main_counts.keys()) | set(side_counts.keys())` (line 227). -/
def allMS (o : Obs) : List String := (keysOf o.main ++ keysOf o.side).dedup

/-- The per-card quantities of the derived main+side scope (lines 228-229,
265-268): each card of `all_ms` with `main.get(card, 0) + side.get(card, 0)`. -/
def msItems (o : Obs) : List (String × Nat) :=
  (allMS o).map (fun c => (c, getV o.main c + getV o.side c))

/-- The accumulator: the twenty counter tables created in `main`
(lines 138-168), each embedded as a sparse counter. -/
@[ext]
structure Acc where
  per_card_total : Cnt
  per_card_by_cut : Tbl
  per_card_qty_by_cut : Tbl
  per_card_total_main : Cnt
  per_card_total_side : Cnt
  per_card_total_extra : Cnt
  per_card_total_main_side : Cnt
  per_card_by_cut_main : Tbl
  per_card_by_cut_side : Tbl
  per_card_by_cut_extra : Tbl
  per_card_by_cut_main_side : Tbl
  per_card_qty_by_cut_main : Tbl
  per_card_qty_by_cut_side : Tbl
  per_card_qty_by_cut_extra : Tbl
  per_card_qty_by_cut_main_side : Tbl
  per_archetype_total : Cnt
  per_archetype_by_cut : Tbl
  per_deck_cut_total : Cnt
  per_card_by_archetype : Tbl
  per_card_qty_by_archetype : Tbl
  per_archetype_card_presence : Tbl
  per_archetype_card_qty : Tbl

def accInit : Acc where
  per_card_total := czero
  per_card_by_cut := tzero
  per_card_qty_by_cut := tzero
  per_card_total_main := czero
  per_card_total_side := czero
  per_card_total_extra := czero
  per_card_total_main_side := czero
  per_card_by_cut_main := tzero
  per_card_by_cut_side := tzero
  per_card_by_cut_extra := tzero
  per_card_by_cut_main_side := tzero
  per_card_qty_by_cut_main := tzero
  per_card_qty_by_cut_side := tzero
  per_card_qty_by_cut_extra := tzero
  per_card_qty_by_cut_main_side := tzero
  per_archetype_total := czero
  per_archetype_by_cut := tzero
  per_deck_cut_total := czero
  per_card_by_archetype := tzero
  per_card_qty_by_archetype := tzero
  per_archetype_card_presence := tzero
  per_archetype_card_qty := tzero

/-- One iteration of the per-entry body (lines 215-286): every counter
update performed for a single observed deck. -/
def observe (a : Acc) (o : Obs) : Acc :=
  let tiers := tiers_applicable o.placing o.cutSize
  { per_card_total := bumpFold a.per_card_total o.counts
    per_card_by_cut := tblFold a.per_card_by_cut (withOne (setKeys o.counts)) tiers
    per_card_qty_by_cut := tblFold a.per_card_qty_by_cut o.counts tiers
    per_card_total_main := bumpFold a.per_card_total_main o.main
    per_card_total_side := bumpFold a.per_card_total_side o.side
    per_card_total_extra := bumpFold a.per_card_total_extra o.extra
    per_card_total_main_side := bumpFold a.per_card_total_main_side (msItems o)
    per_card_by_cut_main := tblFold a.per_card_by_cut_main (withOne (keysOf o.main)) tiers
    per_card_by_cut_side := tblFold a.per_card_by_cut_side (withOne (keysOf o.side)) tiers
    per_card_by_cut_extra := tblFold a.per_card_by_cut_extra (withOne (keysOf o.extra)) tiers
    per_card_by_cut_main_side := tblFold a.per_card_by_cut_main_side (withOne (allMS o)) tiers
    per_card_qty_by_cut_main := tblFold a.per_card_qty_by_cut_main o.main tiers
    per_card_qty_by_cut_side := tblFold a.per_card_qty_by_cut_side o.side tiers
    per_card_qty_by_cut_extra := tblFold a.per_card_qty_by_cut_extra o.extra tiers
    per_card_qty_by_cut_main_side := tblFold a.per_card_qty_by_cut_main_side (msItems o) tiers
    per_archetype_total := bump a.per_archetype_total o.archetype 1
    per_archetype_by_cut :=
      updAt a.per_archetype_by_cut o.archetype (fun m => bumpFold m (withOne tiers))
    per_deck_cut_total := bumpFold a.per_deck_cut_total (withOne tiers)
    per_card_by_archetype :=
      tblFold a.per_card_by_archetype (withOne (setKeys o.counts)) [o.archetype]
    per_card_qty_by_archetype := tblFold a.per_card_qty_by_archetype o.counts [o.archetype]
    per_archetype_card_presence :=
      updAt a.per_archetype_card_presence o.archetype
        (fun m => bumpFold m (withOne (setKeys o.counts)))
    per_archetype_card_qty :=
      updAt a.per_archetype_card_qty o.archetype (fun m => bumpFold m o.counts) }

/-- Pointwise sum of two accumulators. -/
def accAdd (a b : Acc) : Acc where
  per_card_total := fun c => a.per_card_total c + b.per_card_total c
  per_card_by_cut := fun c t => a.per_card_by_cut c t + b.per_card_by_cut c t
  per_card_qty_by_cut := fun c t => a.per_card_qty_by_cut c t + b.per_card_qty_by_cut c t
  per_card_total_main := fun c => a.per_card_total_main c + b.per_card_total_main c
  per_card_total_side := fun c => a.per_card_total_side c + b.per_card_total_side c
  per_card_total_extra := fun c => a.per_card_total_extra c + b.per_card_total_extra c
  per_card_total_main_side :=
    fun c => a.per_card_total_main_side c + b.per_card_total_main_side c
  per_card_by_cut_main := fun c t => a.per_card_by_cut_main c t + b.per_card_by_cut_main c t
  per_card_by_cut_side := fun c t => a.per_card_by_cut_side c t + b.per_card_by_cut_side c t
  per_card_by_cut_extra :=
    fun c t => a.per_card_by_cut_extra c t + b.per_card_by_cut_extra c t
  per_card_by_cut_main_side :=
    fun c t => a.per_card_by_cut_main_side c t + b.per_card_by_cut_main_side c t
  per_card_qty_by_cut_main :=
    fun c t => a.per_card_qty_by_cut_main c t + b.per_card_qty_by_cut_main c t
  per_card_qty_by_cut_side :=
    fun c t => a.per_card_qty_by_cut_side c t + b.per_card_qty_by_cut_side c t
  per_card_qty_by_cut_extra :=
    fun c t => a.per_card_qty_by_cut_extra c t + b.per_card_qty_by_cut_extra c t
  per_card_qty_by_cut_main_side :=
    fun c t => a.per_card_qty_by_cut_main_side c t + b.per_card_qty_by_cut_main_side c t
  per_archetype_total := fun c => a.per_archetype_total c + b.per_archetype_total c
  per_archetype_by_cut := fun c t => a.per_archetype_by_cut c t + b.per_archetype_by_cut c t
  per_deck_cut_total := fun c => a.per_deck_cut_total c + b.per_deck_cut_total c
  per_card_by_archetype :=
    fun c t => a.per_card_by_archetype c t + b.per_card_by_archetype c t
  per_card_qty_by_archetype :=
    fun c t => a.per_card_qty_by_archetype c t + b.per_card_qty_by_archetype c t
  per_archetype_card_presence :=
    fun c t => a.per_archetype_card_presence c t + b.per_archetype_card_presence c t
  per_archetype_card_qty :=
    fun c t => a.per_archetype_card_qty c t + b.per_archetype_card_qty c t

theorem observe_eq_add (a : Acc) (o : Obs) :
    observe a o = accAdd a (observe accInit o) := by
  ext <;>
    simp [observe, accAdd, accInit, bumpFold_apply, tblFold_apply,
      updAt_bumpFold_apply, bump_apply, czero, tzero]

theorem accAdd_right_comm (a b c : Acc) :
    accAdd (accAdd a b) c = accAdd (accAdd a c) b := by
  ext <;> simp [accAdd] <;> omega

theorem observe_comm (a : Acc) (x y : Obs) :
    observe (observe a x) y = observe (observe a y) x := by
  rw [observe_eq_add (observe a x) y, observe_eq_add a x,
      observe_eq_add (observe a y) x, observe_eq_add a y, accAdd_right_comm]

theorem foldl_observe_perm {l₁ l₂ : List Obs} (h : l₁.Perm l₂) :
    ∀ a : Acc, l₁.foldl observe a = l₂.foldl observe a := by
  induction h with
  | nil => intro a; rfl
  | cons x _ ih => intro a; simp only [List.foldl_cons]; exact ih _
  | swap x y l => intro a; simp only [List.foldl_cons]; rw [observe_comm]
  | trans _ _ ih₁ ih₂ => intro a; rw [ih₁, ih₂]

/-! ## Result serialization (usage_stats.py lines 291-340)

The `result` document assembled in `main`, minus the `generated_at` wall-clock
timestamp (real time is outside the embedding).  The `dict(...)` conversions
applied during assembly are identity on the embedded sparse counters. -/

structure ExportDoc where
  gallery_endpoint : String
  event_endpoint_pattern : String
  deck_download_pattern : String
  notes : List String
  per_card_total : Cnt
  per_card_by_cut : Tbl
  per_card_qty_by_cut : Tbl
  per_card_total_main : Cnt
  per_card_total_side : Cnt
  per_card_total_extra : Cnt
  per_card_total_main_side : Cnt
  per_card_by_cut_main : Tbl
  per_card_by_cut_side : Tbl
  per_card_by_cut_extra : Tbl
  per_card_by_cut_main_side : Tbl
  per_card_qty_by_cut_main : Tbl
  per_card_qty_by_cut_side : Tbl
  per_card_qty_by_cut_extra : Tbl
  per_card_qty_by_cut_main_side : Tbl
  per_archetype_total : Cnt
  per_archetype_by_cut : Tbl
  per_deck_cut_total : Cnt
  per_card_by_archetype : Tbl
  per_card_qty_by_archetype : Tbl
  per_archetype_card_presence : Tbl
  per_archetype_card_qty : Tbl

def serializeResult (a : Acc) : ExportDoc where
  gallery_endpoint := "https://formatlibrary.com/api/events/gallery/goat"
  event_endpoint_pattern := "https://formatlibrary.com/api/events/\x7bslug\x7d"
  deck_download_pattern := "https://formatlibrary.com/api/decks/\x7bdeck_id\x7d"
  notes :=
    ["per_card_total: total quantity of each card across all parsed decks (summing copies, all sections)",
     "per_card_by_cut: number of decks that included the card at each cut tier (presence-based, all sections)",
     "per_card_qty_by_cut: total copies of the card at each cut tier (all sections)",
     "per_card_total_main/side/extra: totals by section",
     "per_card_total_main_side: totals for main+side (excluding extra)",
     "per_card_by_cut_* and per_card_qty_by_cut_*: section-specific presence/quantity by cut, including main_side",
     "per_archetype_total: number of decks per archetype (each deck counted once)",
     "per_archetype_by_cut: number of decks of that archetype that made each cut tier",
     "per_deck_cut_total: total decks that reached each cut tier (all archetypes)",
     "per_card_by_archetype: for each card, how many decks of each archetype included it (presence).",
     "per_card_qty_by_archetype: for each card, total copies across decks of each archetype.",
     "per_archetype_card_presence: for each archetype, how many decks used each card (presence).",
     "per_archetype_card_qty: for each archetype, total copies of each card."]
  per_card_total := a.per_card_total
  per_card_by_cut := a.per_card_by_cut
  per_card_qty_by_cut := a.per_card_qty_by_cut
  per_card_total_main := a.per_card_total_main
  per_card_total_side := a.per_card_total_side
  per_card_total_extra := a.per_card_total_extra
  per_card_total_main_side := a.per_card_total_main_side
  per_card_by_cut_main := a.per_card_by_cut_main
  per_card_by_cut_side := a.per_card_by_cut_side
  per_card_by_cut_extra := a.per_card_by_cut_extra
  per_card_by_cut_main_side := a.per_card_by_cut_main_side
  per_card_qty_by_cut_main := a.per_card_qty_by_cut_main
  per_card_qty_by_cut_side := a.per_card_qty_by_cut_side
  per_card_qty_by_cut_extra := a.per_card_qty_by_cut_extra
  per_card_qty_by_cut_main_side := a.per_card_qty_by_cut_main_side
  per_archetype_total := a.per_archetype_total
  per_archetype_by_cut := a.per_archetype_by_cut
  per_deck_cut_total := a.per_deck_cut_total
  per_card_by_archetype := a.per_card_by_archetype
  per_card_qty_by_archetype := a.per_card_qty_by_archetype
  per_archetype_card_presence := a.per_archetype_card_presence
  per_archetype_card_qty := a.per_archetype_card_qty

/-- C7: feeding a finite multiset of observations to the aggregation engine
in any two orders and then serializing yields equal export mappings —
`observe` is commutative up to the serialized result.  Sparseness of the
export is by construction of the counter model (a key combination reads
nonzero exactly when it was observed). -/
theorem serialize_order_independent (l₁ l₂ : List Obs) (h : l₁.Perm l₂) :
    serializeResult (l₁.foldl observe accInit)
      = serializeResult (l₂.foldl observe accInit) := by
  rw [foldl_observe_perm h]

theorem serialize_order_independent_witness :
    serializeResult (List.foldl observe accInit
        [⟨[("A", 2)], [("A", 2)], [], [], 1, 8, "Burn"⟩,
         ⟨[("B", 1)], [], [("B", 1)], [], 2, 8, "Control"⟩])
      = serializeResult (List.foldl observe accInit
        [⟨[("B", 1)], [], [("B", 1)], [], 2, 8, "Control"⟩,
         ⟨[("A", 2)], [("A", 2)], [], [], 1, 8, "Burn"⟩]) :=
  serialize_order_independent _ _ (List.Perm.swap _ _ _)

/-! ## C2 and C5: the cut-tier classifier -/

theorem tiersAux_filter (p b : Int) (L : List (String × Int)) (acc : List String) :
    L.foldl (fun a pr => if pr.2 ≤ b ∧ p ≤ pr.2 then a ++ [pr.1] else a) acc
      = acc ++ (L.filter (fun pr => decide (pr.2 ≤ b ∧ p ≤ pr.2))).map Prod.fst := by
  induction L generalizing acc with
  | nil => simp
  | cons pr rest ih =>
      simp only [List.foldl_cons, List.filter_cons]
      by_cases h : pr.2 ≤ b ∧ p ≤ pr.2
      · rw [if_pos h, ih]; simp [h]
      · rw [if_neg h, ih]; simp [h]

/-- C2: `tiers_applicable p b` is exactly the labels whose threshold `t`
satisfies `t ≤ b ∧ p ≤ t`, in the fixed `CUT_TIERS` order; it is empty for
the sentinel placement 9999 and for a non-positive bracket size, and is all
nine labels at placement 1 in a 64 bracket. -/
theorem tiers_applicable_exact (p b : Int) :
    tiers_applicable p b
        = (CUT_TIERS.filter (fun pr => decide (pr.2 ≤ b ∧ p ≤ pr.2))).map Prod.fst ∧
      (p = 9999 → tiers_applicable p b = []) ∧
      (b ≤ 0 → tiers_applicable p b = []) ∧
      tiers_applicable 1 64 = tierLabels := by
  have hfil : tiers_applicable p b
      = (CUT_TIERS.filter (fun pr => decide (pr.2 ≤ b ∧ p ≤ pr.2))).map Prod.fst := by
    have h := tiersAux_filter p b CUT_TIERS []
    simpa [tiers_applicable] using h
  refine ⟨hfil, ?_, ?_, by decide⟩
  · intro hp
    subst hp
    rw [hfil]
    have hnil : CUT_TIERS.filter (fun pr => decide (pr.2 ≤ b ∧ (9999:Int) ≤ pr.2)) = [] := by
      rw [List.filter_eq_nil_iff]
      intro pr hpr
      fin_cases hpr <;> (simp only [decide_eq_true_eq]; omega)
    rw [hnil]; rfl
  · intro hb
    rw [hfil]
    have hnil : CUT_TIERS.filter (fun pr => decide (pr.2 ≤ b ∧ p ≤ pr.2)) = [] := by
      rw [List.filter_eq_nil_iff]
      intro pr hpr
      fin_cases hpr <;> (simp only [decide_eq_true_eq]; omega)
    rw [hnil]; rfl

theorem tiers_applicable_exact_witness :
    tiers_applicable 9999 32 = [] ∧ tiers_applicable 5 0 = [] :=
  ⟨(tiers_applicable_exact 9999 32).2.1 rfl,
   (tiers_applicable_exact 5 0).2.2.1 (by decide)⟩

set_option maxHeartbeats 1000000 in
/-- C5: for a non-negative `top_len`, `infer_cut_size_from_top` returns the
smallest tier threshold that is ≥ `top_len`, and `top_len` itself once it
exceeds 64; in particular 5 ↦ 8 and 100 ↦ 100. -/
theorem infer_cut_size_least (n : Int) (hn : 0 ≤ n) :
    (n ≤ 64 →
      infer_cut_size_from_top n ∈ tierThresholds ∧
      n ≤ infer_cut_size_from_top n ∧
      ∀ t ∈ tierThresholds, n ≤ t → infer_cut_size_from_top n ≤ t) ∧
    (64 < n → infer_cut_size_from_top n = n) ∧
    infer_cut_size_from_top 5 = 8 ∧ infer_cut_size_from_top 100 = 100 := by
  refine ⟨?_, ?_, by decide, by decide⟩
  · intro h64
    simp only [infer_cut_size_from_top, CUT_TIERS, inferCutAux, tierThresholds,
      List.map_cons, List.map_nil]
    split_ifs <;>
      first
      | (exfalso; omega)
      | (refine ⟨by decide, by omega, ?_⟩
         intro t ht
         simp only [List.mem_cons, List.not_mem_nil, or_false] at ht
         rcases ht with rfl | rfl | rfl | rfl | rfl | rfl | rfl | rfl | rfl <;> omega)
  · intro h64
    simp only [infer_cut_size_from_top, CUT_TIERS, inferCutAux]
    split_ifs <;> omega

theorem infer_cut_size_least_witness :
    infer_cut_size_from_top 5 ∈ tierThresholds ∧ (5:Int) ≤ infer_cut_size_from_top 5 :=
  ⟨((infer_cut_size_least 5 (by decide)).1 (by decide)).1,
   ((infer_cut_size_least 5 (by decide)).1 (by decide)).2.1⟩

/-! ## C1: the two-deck archetype/cut tally -/

def burnObs : Obs := ⟨[], [], [], [], 1, 64, "Burn"⟩

def controlObs : Obs := ⟨[], [], [], [], 50, 64, "Control"⟩

def c1Acc : Acc := List.foldl observe accInit [burnObs, controlObs]

/-- C1 counterexample: with archetype "Burn" placing 1st and archetype
"Control" placing 50th in a 64 bracket, the deck placing 50th qualifies for
the "Top 64" tier (its threshold 64 satisfies 64 ≤ 64 and 50 ≤ 64), so
`per_archetype_by_cut["Control"]` is not the empty mapping and
`per_deck_cut_total["Top 64"]` also counts Control's deck — both contrary to
the claim that Control's mapping is empty and that `per_deck_cut_total` is
exactly Burn's contributions. -/
theorem control_top64_counted :
    c1Acc.per_archetype_by_cut ("Control") ("Top 64") = 1 ∧
    c1Acc.per_deck_cut_total ("Top 64") = 2 := by decide

/-- C1 (amended): for the two observed decks in a 64 bracket — "Burn" at
placement 1 and "Control" at placement 50 — `per_archetype_by_cut["Burn"]`
holds all nine tiers with count 1 each, `per_archetype_by_cut["Control"]`
holds exactly the tier "Top 64" with count 1 (zero at the other eight), and
`per_deck_cut_total` is Burn's per-tier contribution plus Control's "Top 64"
contribution: 1 at the first eight tiers and 2 at "Top 64". -/
theorem two_deck_cut_tally :
    (c1Acc.per_archetype_by_cut ("Burn") ("Winner") = 1 ∧
     c1Acc.per_archetype_by_cut ("Burn") ("Finalist") = 1 ∧
     c1Acc.per_archetype_by_cut ("Burn") ("Top 4") = 1 ∧
     c1Acc.per_archetype_by_cut ("Burn") ("Top 8") = 1 ∧
     c1Acc.per_archetype_by_cut ("Burn") ("Top 16") = 1 ∧
     c1Acc.per_archetype_by_cut ("Burn") ("Top 24") = 1 ∧
     c1Acc.per_archetype_by_cut ("Burn") ("Top 32") = 1 ∧
     c1Acc.per_archetype_by_cut ("Burn") ("Top 48") = 1 ∧
     c1Acc.per_archetype_by_cut ("Burn") ("Top 64") = 1) ∧
    (c1Acc.per_archetype_by_cut ("Control") ("Winner") = 0 ∧
     c1Acc.per_archetype_by_cut ("Control") ("Finalist") = 0 ∧
     c1Acc.per_archetype_by_cut ("Control") ("Top 4") = 0 ∧
     c1Acc.per_archetype_by_cut ("Control") ("Top 8") = 0 ∧
     c1Acc.per_archetype_by_cut ("Control") ("Top 16") = 0 ∧
     c1Acc.per_archetype_by_cut ("Control") ("Top 24") = 0 ∧
     c1Acc.per_archetype_by_cut ("Control") ("Top 32") = 0 ∧
     c1Acc.per_archetype_by_cut ("Control") ("Top 48") = 0 ∧
     c1Acc.per_archetype_by_cut ("Control") ("Top 64") = 1) ∧
    (c1Acc.per_deck_cut_total ("Winner") = 1 ∧
     c1Acc.per_deck_cut_total ("Finalist") = 1 ∧
     c1Acc.per_deck_cut_total ("Top 4") = 1 ∧
     c1Acc.per_deck_cut_total ("Top 8") = 1 ∧
     c1Acc.per_deck_cut_total ("Top 16") = 1 ∧
     c1Acc.per_deck_cut_total ("Top 24") = 1 ∧
     c1Acc.per_deck_cut_total ("Top 32") = 1 ∧
     c1Acc.per_deck_cut_total ("Top 48") = 1 ∧
     c1Acc.per_deck_cut_total ("Top 64") = 2) := by decide

/-! ## C3: the derived main+side totals -/

theorem getV_cons (p : String × Nat) (items : List (String × Nat)) (c : String) :
    getV (p :: items) c = if p.1 = c then p.2 else getV items c := by
  by_cases h : p.1 = c
  · rw [if_pos h]
    unfold getV
    rw [List.find?_cons_of_pos _ (by simp [h])]
    simp
  · rw [if_neg h]
    unfold getV
    rw [List.find?_cons_of_neg _ (by simp [h])]

theorem sumAt_eq_zero_of_not_mem (items : List (String × Nat)) (c : String)
    (h : c ∉ keysOf items) : sumAt items c = 0 := by
  induction items with
  | nil => simp [sumAt]
  | cons p rest ih =>
      simp only [keysOf, List.map_cons, List.mem_cons, not_or] at h
      rw [sumAt_cons, if_neg (fun hh => h.1 hh.symm), ih h.2]

theorem getV_eq_sumAt (items : List (String × Nat)) (c : String)
    (h : (keysOf items).Nodup) : getV items c = sumAt items c := by
  induction items with
  | nil => simp [getV, sumAt]
  | cons p rest ih =>
      simp only [keysOf, List.map_cons, List.nodup_cons] at h
      rw [getV_cons, sumAt_cons]
      by_cases hc : p.1 = c
      · rw [if_pos hc, if_pos hc]
        have h0 : sumAt rest c = 0 :=
          sumAt_eq_zero_of_not_mem rest c (fun hh => h.1 (hc ▸ hh))
        omega
      · rw [if_neg hc, if_neg hc, Nat.zero_add]
        exact ih h.2

theorem sumAt_map_fn (ks : List String) (f : String → Nat) (c : String) (h : ks.Nodup) :
    sumAt (ks.map fun k => (k, f k)) c = if c ∈ ks then f c else 0 := by
  induction ks with
  | nil => simp [sumAt]
  | cons a rest ih =>
      rw [List.nodup_cons] at h
      simp only [List.map_cons, sumAt_cons]
      rw [ih h.2]
      by_cases hc : a = c
      · subst hc
        simp [h.1]
      · have hc2 : ¬c = a := fun hh => hc hh.symm
        simp [hc, hc2, List.mem_cons]

theorem msItems_sumAt (o : Obs) (hm : (keysOf o.main).Nodup)
    (hs : (keysOf o.side).Nodup) (c : String) :
    sumAt (msItems o) c = sumAt o.main c + sumAt o.side c := by
  have hnd : (allMS o).Nodup := List.nodup_dedup _
  rw [msItems, sumAt_map_fn _ _ _ hnd]
  by_cases hmem : c ∈ allMS o
  · rw [if_pos hmem, getV_eq_sumAt _ _ hm, getV_eq_sumAt _ _ hs]
  · rw [if_neg hmem]
    simp only [allMS, List.mem_dedup, List.mem_append, not_or] at hmem
    rw [sumAt_eq_zero_of_not_mem _ _ hmem.1, sumAt_eq_zero_of_not_mem _ _ hmem.2]

/-- The C3 invariant on an accumulator state. -/
def msInv (a : Acc) : Prop :=
  ∀ c, a.per_card_total_main_side c = a.per_card_total_main c + a.per_card_total_side c

theorem msInv_observe (a : Acc) (o : Obs) (hm : (keysOf o.main).Nodup)
    (hs : (keysOf o.side).Nodup) (h : msInv a) : msInv (observe a o) := by
  intro c
  show bumpFold a.per_card_total_main_side (msItems o) c
      = bumpFold a.per_card_total_main o.main c + bumpFold a.per_card_total_side o.side c
  rw [bumpFold_apply, bumpFold_apply, bumpFold_apply, msItems_sumAt o hm hs]
  have hc := h c
  omega

theorem msInv_foldl (l : List Obs)
    (h : ∀ o ∈ l, (keysOf o.main).Nodup ∧ (keysOf o.side).Nodup) :
    ∀ a, msInv a → msInv (l.foldl observe a) := by
  induction l with
  | nil => intro a ha; simpa using ha
  | cons o rest ih =>
      intro a ha
      simp only [List.foldl_cons]
      exact ih (fun x hx => h x (List.mem_cons_of_mem _ hx)) _
        (msInv_observe a o (h o (List.mem_cons_self _ _)).1
          (h o (List.mem_cons_self _ _)).2 ha)

/-- C3: at every point of an aggregation run (after any prefix of deck
observations, each with genuine-dict — duplicate-free — main and side key
lists), `per_card_total_main_side[c]` equals
`per_card_total_main[c] + per_card_total_side[c]` for every card `c`; the
main+side table is only ever fed from the per-deck main and side counts. -/
theorem main_side_invariant (l : List Obs)
    (h : ∀ o ∈ l, (keysOf o.main).Nodup ∧ (keysOf o.side).Nodup) (c : String) :
    (l.foldl observe accInit).per_card_total_main_side c
      = (l.foldl observe accInit).per_card_total_main c
        + (l.foldl observe accInit).per_card_total_side c :=
  msInv_foldl l h accInit (fun _ => rfl) c

theorem main_side_invariant_witness :
    (List.foldl observe accInit
        [⟨[("A", 3), ("B", 1)], [("A", 2)], [("A", 1), ("B", 1)], [], 1, 8, "X"⟩,
         ⟨[("A", 1)], [("A", 1)], [], [], 2, 8, "Y"⟩]).per_card_total_main_side ("A")
      = (List.foldl observe accInit
        [⟨[("A", 3), ("B", 1)], [("A", 2)], [("A", 1), ("B", 1)], [], 1, 8, "X"⟩,
         ⟨[("A", 1)], [("A", 1)], [], [], 2, 8, "Y"⟩]).per_card_total_main ("A")
        + (List.foldl observe accInit
        [⟨[("A", 3), ("B", 1)], [("A", 2)], [("A", 1), ("B", 1)], [], 1, 8, "X"⟩,
         ⟨[("A", 1)], [("A", 1)], [], [], 2, 8, "Y"⟩]).per_card_total_side ("A") :=
  main_side_invariant _ (by decide) ("A")

/-! ## C9 and C4: combined counts vs. per-section counts -/

theorem addFromSection_cons (t : Cnt) (o : CardObj) (rest : List CardObj) :
    addFromSection t (o :: rest)
      = addFromSection
          (match objName o with
           | some nm => bump t (normalize_card_name nm) 1
           | none => t) rest := rfl

theorem addFromSection_shift (items : List CardObj) (t : Cnt) (c : String) :
    addFromSection t items c = t c + addFromSection czero items c := by
  induction items generalizing t with
  | nil => simp [addFromSection, czero]
  | cons o rest ih =>
      rw [addFromSection_cons, addFromSection_cons]
      cases ho : objName o with
      | none =>
          simp only [ho]
          exact ih t
      | some nm =>
          simp only [ho]
          rw [ih (bump t (normalize_card_name nm) 1),
            ih (bump czero (normalize_card_name nm) 1), bump_apply, bump_apply]
          simp [czero]
          omega

/-- C9: for a record payload containing at least one of the keys `main`,
`extra`, `side`, the combined counts of `parse_deck_payload` equal, per
card, the sum of the three per-section counts of `parse_deck_sections`
(main + side + extra). -/
theorem payload_counts_eq_section_sum (d : PDict)
    (h : d.main.isSome ∨ d.extra.isSome ∨ d.side.isSome) (c : String) :
    parse_deck_payload (.pdict d) c
      = (parse_deck_sections (.pdict d)).1 c
        + (parse_deck_sections (.pdict d)).2.1 c
        + (parse_deck_sections (.pdict d)).2.2 c := by
  simp only [parse_deck_payload, parse_deck_sections]
  rw [if_pos h]
  rw [addFromSection_shift (d.side.getD []), addFromSection_shift (d.extra.getD [])]
  omega

theorem payload_counts_eq_section_sum_witness :
    parse_deck_payload
        (.pdict ⟨some [⟨some ("Pot of Greed"), none, none⟩], none,
          some [⟨some ("Pot of Greed"), none, none⟩], none, none, none⟩) ("Pot of Greed")
      = (parse_deck_sections
          (.pdict ⟨some [⟨some ("Pot of Greed"), none, none⟩], none,
            some [⟨some ("Pot of Greed"), none, none⟩], none, none, none⟩)).1 ("Pot of Greed")
        + (parse_deck_sections
          (.pdict ⟨some [⟨some ("Pot of Greed"), none, none⟩], none,
            some [⟨some ("Pot of Greed"), none, none⟩], none, none, none⟩)).2.1 ("Pot of Greed")
        + (parse_deck_sections
          (.pdict ⟨some [⟨some ("Pot of Greed"), none, none⟩], none,
            some [⟨some ("Pot of Greed"), none, none⟩], none, none, none⟩)).2.2 ("Pot of Greed") :=
  payload_counts_eq_section_sum _ (by decide) ("Pot of Greed")

/-- C4 counterexample: take the string payload whose `json.loads` succeeds,
decoding to a record with `main = [{name: "Pot of Greed"}]`.  The section
parser `parse_deck_sections` returns three empty mappings on it — it never
attempts the decode — although the decoded record's own sections would give
`main["Pot of Greed"] = 1`, contrary to the claim that the section parser
tries the string as encoded structured data first. -/
theorem string_payload_sections_empty :
    (parse_deck_sections (Payload.pstrDecoded
        (.pdict ⟨some [⟨some ("Pot of Greed"), none, none⟩], none, none, none, none, none⟩)
        ("\x7b\"main\": [\x7b\"name\": \"Pot of Greed\"\x7d]\x7d"))).1 ("Pot of Greed") = 0 ∧
    (parse_deck_sections
        (.pdict ⟨some [⟨some ("Pot of Greed"), none, none⟩], none, none, none, none,
          none⟩)).1 ("Pot of Greed") = 1 := by
  decide

/-- C4 (amended): the per-section parser `parse_deck_sections` handles only
record payloads — on any string payload (decodable or not) it returns three
empty mappings without attempting a decode; it is the combined-count parser
`parse_deck_payload` that first tries a string payload as encoded structured
data (on success parsing the decoded value) and falls back to raw deck-list
parsing only on decode failure. -/
theorem string_payload_parsing_split :
    (∀ (p : Payload) (raw : String),
        parse_deck_sections (.pstrDecoded p raw) = (czero, czero, czero) ∧
        parse_deck_sections (.pstrRaw raw) = (czero, czero, czero)) ∧
    (∀ (p : Payload) (raw : String),
        parse_deck_payload (.pstrDecoded p raw) = parse_deck_payload p) ∧
    (∀ raw : String,
        parse_deck_payload (.pstrRaw raw) = parseYdkLines czero (pySplitLines raw)) :=
  ⟨fun _ _ => ⟨rfl, rfl⟩, fun _ _ => rfl, fun _ => rfl⟩

/-! ## C6: deck-list text lines -/

theorem parseYdkLines_cons (t : Cnt) (ln : String) (rest : List String) :
    parseYdkLines t (ln :: rest)
      = parseYdkLines
          (if pyStrip ln = "" ∨ pyStartsWith (pyStrip ln) '#' ∨ pyStartsWith (pyStrip ln) '!'
           then t
           else if pyIsDigit (pyStrip ln) then bump t ("CARD_ID:" ++ pyStrip ln) 1
           else bump t (normalize_card_name (pyStrip ln)) 1) rest := rfl

/-- C6: in the deck-list text loop, a line that strips to the empty string or
whose (stripped) first character is a comment marker contributes nothing; a
purely numeric line adds 1 under the synthetic key `CARD_ID:<id>`; every
other non-blank line adds 1 under the stripped line itself; and parsing the
text `4001\n#comment\nDark Hole` yields exactly
`CARD_ID:4001 ↦ 1, Dark Hole ↦ 1`. -/
theorem ydk_line_rules (t : Cnt) (ln : String) (rest : List String) :
    ((pyStrip ln = "" ∨ pyStartsWith (pyStrip ln) '#' ∨ pyStartsWith (pyStrip ln) '!') →
        parseYdkLines t (ln :: rest) = parseYdkLines t rest) ∧
    (¬(pyStrip ln = "" ∨ pyStartsWith (pyStrip ln) '#' ∨ pyStartsWith (pyStrip ln) '!') →
      pyIsDigit (pyStrip ln) = true →
        parseYdkLines t (ln :: rest)
          = parseYdkLines (bump t ("CARD_ID:" ++ pyStrip ln) 1) rest) ∧
    (¬(pyStrip ln = "" ∨ pyStartsWith (pyStrip ln) '#' ∨ pyStartsWith (pyStrip ln) '!') →
      pyIsDigit (pyStrip ln) = false →
        parseYdkLines t (ln :: rest)
          = parseYdkLines (bump t (normalize_card_name (pyStrip ln)) 1) rest) ∧
    (∀ c, parseYdkLines czero (pySplitLines ("4001\n#comment\nDark Hole")) c
        = if c = "CARD_ID:4001" then 1 else if c = "Dark Hole" then 1 else 0) := by
  refine ⟨?_, ?_, ?_, ?_⟩
  · intro h
    rw [parseYdkLines_cons, if_pos h]
  · intro h hd
    rw [parseYdkLines_cons, if_neg h, if_pos hd]
  · intro h hd
    rw [parseYdkLines_cons, if_neg h, if_neg (by simp [hd])]
  · intro c
    have hval : parseYdkLines czero (pySplitLines ("4001\n#comment\nDark Hole"))
        = bump (bump czero ("CARD_ID:4001") 1) ("Dark Hole") 1 := rfl
    rw [hval, bump_apply, bump_apply]
    by_cases h1 : c = "CARD_ID:4001"
    · by_cases h2 : c = "Dark Hole"
      · exfalso
        rw [h1] at h2
        exact absurd h2 (by decide)
      · simp [h1, h2, czero]
    · by_cases h2 : c = "Dark Hole"
      · simp [h1, h2, czero]
      · simp [h1, h2, czero]

theorem ydk_line_rules_witness :
    parseYdkLines czero (("#skip") :: []) = parseYdkLines czero [] :=
  (ydk_line_rules czero ("#skip") []).1 (by decide)

/-! ## C8: choice of the card-name field -/

/-- The first entry of a list of optional strings that is present and
nonempty (the amended reading of the spec's "first-present field"). -/
def firstNonEmptyOpt : List (Option String) → Option String
  | [] => none
  | none :: rest => firstNonEmptyOpt rest
  | some s :: rest => if s = "" then firstNonEmptyOpt rest else some s

/-- Spec-side definition for the amended C8: the first of `name`,
`cleanName`, `cardName` that is present and non-empty. -/
def firstPresentNonEmpty (o : CardObj) : Option String :=
  firstNonEmptyOpt [o.name, o.cleanName, o.cardName]

/-- Number of objects in a section whose chosen name normalizes to `c`. -/
def specSecCount (items : List CardObj) (c : String) : Nat :=
  (items.map (fun o =>
    match firstPresentNonEmpty o with
    | some nm => if normalize_card_name nm = c then 1 else 0
    | none => 0)).sum

theorem objName_eq_firstPresent (o : CardObj) : objName o = firstPresentNonEmpty o := by
  obtain ⟨n, cl, cd⟩ := o
  cases n <;> cases cl <;> cases cd <;>
    simp only [objName, pyOr, truthyStr, firstPresentNonEmpty, firstNonEmptyOpt] <;>
    split_ifs <;> simp_all

/-- C8 (amended): the name recorded for a card-reference object is the value
of the first field among `name`, `cleanName`, `cardName` that is present
*and non-empty* (normalized); an object with no such field is skipped
silently, contributing nothing, and every section count is exactly the
number of objects whose chosen name normalizes to the counted card. -/
theorem card_name_pick_rules :
    (∀ o : CardObj, objName o = firstPresentNonEmpty o) ∧
    (∀ (t : Cnt) (items : List CardObj) (c : String),
        addFromSection t items c = t c + specSecCount items c) ∧
    (∀ (t : Cnt) (o : CardObj) (rest : List CardObj),
        objName o = none → addFromSection t (o :: rest) = addFromSection t rest) := by
  refine ⟨objName_eq_firstPresent, ?_, ?_⟩
  · intro t items c
    induction items generalizing t with
    | nil => simp [addFromSection, specSecCount]
    | cons o rest ih =>
        rw [addFromSection_cons]
        have hstep : specSecCount (o :: rest) c
            = (match firstPresentNonEmpty o with
               | some nm => if normalize_card_name nm = c then 1 else 0
               | none => 0) + specSecCount rest c := by
          simp [specSecCount]
        rw [hstep, ← objName_eq_firstPresent]
        cases ho : objName o with
        | none =>
            simp only [ho]
            rw [ih t]
            omega
        | some nm =>
            simp only [ho]
            rw [ih (bump t (normalize_card_name nm) 1), bump_apply]
            by_cases hc : c = normalize_card_name nm
            · rw [if_pos hc, if_pos hc.symm]
              omega
            · rw [if_neg hc, if_neg (fun hh => hc hh.symm)]
              omega
  · intro t o rest ho
    rw [addFromSection_cons]
    simp only [ho]

theorem card_name_pick_rules_witness :
    addFromSection czero [CardObj.mk none none none] = addFromSection czero [] :=
  card_name_pick_rules.2.2 czero (CardObj.mk none none none) [] rfl

/-- C8 counterexample: for the object `{name: "", cleanName: "X"}` in a
record's `main` section, the first-present field is `name` (the empty
string), but the code's `or` chain skips falsy fields and records "X": the
main counts read 1 at "X" and 0 at "", contradicting the claim that the
value of the first-present field is recorded. -/
theorem empty_name_field_records_next :
    (parse_deck_sections
        (.pdict ⟨some [⟨some (""), some ("X"), none⟩], none, none, none, none,
          none⟩)).1 ("X") = 1 ∧
    (parse_deck_sections
        (.pdict ⟨some [⟨some (""), some ("X"), none⟩], none, none, none, none,
          none⟩)).1 ("") = 0 := by
  decide

/-! ## C10: the deck-payload placement override (usage_stats.py lines 189-210)

`placing` is first derived from the event entry (lines 190-194): the `or`
chain over the `placing`/`place`/`rank` fields is embedded as the single
first-truthy value, and a failed `int(...)` conversion yields the sentinel
9999.  Lines 203-208 then let a record payload's `placement` field override
it only when `int(payload["placement"])` succeeds — `except: pass` keeps the
entry-derived value.  Lines 209-210 override the archetype from
`deckTypeName` independently of the placement field. -/

def placingFromEntry (raw : Option PyScalar) : Int :=
  match raw with
  | some v => v.toInt.getD 9999
  | none => 9999

def resolvePlacing (base : Int) (payload : Payload) : Int :=
  match payload with
  | .pdict d =>
      match d.placement with
      | some v => v.toInt.getD base
      | none => base
  | _ => base

def resolveArchetype (base : String) (payload : Payload) : String :=
  match payload with
  | .pdict d =>
      match d.deckTypeName with
      | some s => if s = "" then base else s
      | none => base
  | _ => base

/-- C10: when the fetched deck record carries a `placement` field whose
integer parse fails, the override is a no-op — the placement used for tier
classification stays the event-entry-derived value (9999 when the entry
value was itself missing or unparsable) — and the archetype resolution is
unaffected by the failed placement override (it reads the same as on the
payload without the placement field). -/
theorem placement_override_failure_keeps_base (d : PDict) (v : PyScalar)
    (raw : Option PyScalar) (abase : String)
    (hp : d.placement = some v) (hv : v.toInt = none) :
    resolvePlacing (placingFromEntry raw) (.pdict d) = placingFromEntry raw ∧
    resolveArchetype abase (.pdict d)
      = resolveArchetype abase (.pdict { d with placement := none }) ∧
    (raw = none → placingFromEntry raw = 9999) ∧
    (∀ w, raw = some w → w.toInt = none → placingFromEntry raw = 9999) := by
  refine ⟨?_, ?_, ?_, ?_⟩
  · simp [resolvePlacing, hp, hv]
  · simp [resolveArchetype]
  · intro h
    subst h
    rfl
  · intro w hw hwt
    subst hw
    simp [placingFromEntry, hwt]

theorem placement_override_failure_keeps_base_witness :
    resolvePlacing (placingFromEntry (some ⟨some 3⟩))
        (.pdict ⟨none, none, none, none, some ⟨none⟩, some ("Burn")⟩)
      = placingFromEntry (some ⟨some 3⟩) :=
  (placement_override_failure_keeps_base _ ⟨none⟩ _ ("Unknown") rfl rfl).1
